import Mathlib

/-!
Verification of the bronzite daemon against its specification.

This file gives a shallow embedding of the bronzite daemon's query
resolution, cache management, protocol codec and socket-path logic
(crates/bronzite-daemon/src/main.rs and crates/bronzite-types/src/lib.rs),
and proves or refutes the specified properties.

Strings are modelled as lists of characters (`Str`), and the Rust `str`
methods used by the source (`starts_with`, `ends_with`, `contains`,
`split`, `trim`) are given direct recursive models below.
-/

/-- Paths, patterns and messages are character lists. -/
abbrev Str := List Char

/-- Shorthand turning a Lean string literal into a `Str`. -/
def str (s : String) : Str := s.toList

/-- Model of Rust `str::starts_with`: `startsWithStr s p` is true iff `p`
is a prefix of `s`. -/
def startsWithStr : Str → Str → Bool
  | _, [] => true
  | [], _ :: _ => false
  | c :: s, d :: p => c == d && startsWithStr s p

/-- Model of Rust `str::ends_with`: true iff the second list is a suffix
of the first. -/
def endsWithStr (s suf : Str) : Bool :=
  startsWithStr s.reverse suf.reverse

/-- Model of Rust `str::contains` for a substring needle. -/
def containsStr (sub : Str) : Str → Bool
  | [] => sub.isEmpty
  | c :: rest => startsWithStr (c :: rest) sub || containsStr sub rest

/-- Model of Rust `str::trim` (drop whitespace at both ends). -/
def trimStr (s : Str) : Str :=
  ((s.dropWhile Char.isWhitespace).reverse.dropWhile Char.isWhitespace).reverse

/-- Helper for `splitOnChar`: returns the first chunk and the remaining
chunks of the split. -/
def splitAux (c : Char) : Str → Str × List Str
  | [] => ([], [])
  | x :: xs =>
    let r := splitAux c xs
    if x == c then ([], r.1 :: r.2) else (x :: r.1, r.2)

/-- Model of Rust `str::split(c)`: the list of chunks between occurrences
of the separator character (always nonempty). -/
def splitOnChar (c : Char) (s : Str) : List Str :=
  (splitAux c s).1 :: (splitAux c s).2

theorem splitAux_snd_length (c : Char) (s : Str) :
    (splitAux c s).2.length = s.count c := by
  induction s with
  | nil => simp [splitAux]
  | cons x xs ih =>
    by_cases h : x == c <;>
      simp [splitAux, h, List.count_cons, ih]

theorem splitOnChar_length (c : Char) (s : Str) :
    (splitOnChar c s).length = s.count c + 1 := by
  simp [splitOnChar, splitAux_snd_length]

/-- Translation of `bronzite_types::path_matches_pattern`
(crates/bronzite-types/src/lib.rs, lines 791-822). -/
def path_matches_pattern (path pattern : Str) : Bool :=
  let pat := trimStr pattern
  let pth := trimStr path
  -- Recursive glob: foo::** matches foo::bar::baz
  if endsWithStr pat (str "::**") then
    let pref := pat.take (pat.length - 4)
    pth == pref || startsWithStr pth (pref ++ str "::")
  -- Single level glob: foo::* matches foo::bar but not foo::bar::baz
  else if endsWithStr pat (str "::*") then
    let pref := pat.take (pat.length - 3)
    if !startsWithStr pth (pref ++ str "::") then false
    else
      let suffix := pth.drop (pref.length + 2)
      !containsStr (str "::") suffix
  -- Wildcard in name: foo::Bar* matches foo::BarBaz
  else if pat.contains '*' then
    match splitOnChar '*' pat with
    | [p0, p1] => startsWithStr pth p0 && endsWithStr pth p1
    | _ => false
  -- Exact match
  else pth == pat

example : path_matches_pattern (str "pkg::Bar") (str "pkg::*") = true := by decide
example : path_matches_pattern (str "pkg::sub::Bar") (str "pkg::*") = false := by decide
example : path_matches_pattern (str "pkg::sub::Bar") (str "pkg::**") = true := by decide
example : path_matches_pattern (str "pkg::BarBaz") (str "pkg::Bar*") = true := by decide
example : path_matches_pattern (str "pkg::Baz") (str "pkg::Bar*") = false := by decide
example : path_matches_pattern (str "foo::Bar") (str "foo::Bar") = true := by decide
example : path_matches_pattern (str "x") (str "a*b*c") = false := by decide

/-!
Data model, translated from crates/bronzite-types/src/lib.rs.
Rust `HashMap<String, V>` becomes an association list `List (Str × V)`
(exact lookup by key; value iteration in list order), `Option<T>` becomes
`Option T`, `Vec<T>` becomes `List T`, `usize`/`u64` become `Nat` and
`i128` becomes `Int`.
-/

/-- Visibility of an item (bronzite-types, `Visibility`). -/
inductive Visibility where
  | Public
  | Crate
  | Restricted (path : Str)
  | Private

/-- Source location information (bronzite-types, `SpanInfo`). -/
structure SpanInfo where
  file : Str
  start_line : Nat
  start_col : Nat
  end_line : Nat
  end_col : Nat

/-- The kind of an item (bronzite-types, `ItemKind`). -/
inductive ItemKind where
  | Struct
  | Enum
  | Union
  | Trait
  | Function
  | Const
  | Static
  | TypeAlias
  | Impl
  | Mod
  | Use
  | ExternCrate
  | Macro
  | TraitAlias
  | Other (s : Str)

/-- Basic information about an item (bronzite-types, `ItemInfo`). -/
structure ItemInfo where
  name : Str
  path : Str
  kind : ItemKind
  visibility : Visibility
  span : Option SpanInfo

/-- The kind of a type (bronzite-types, `TypeKind`). -/
inductive TypeKind where
  | Struct
  | Enum
  | Union
  | Trait
  | TypeAlias
  | Primitive
  | Tuple
  | Array
  | Slice
  | Reference
  | Pointer
  | Function
  | Closure
  | Opaque

/-- Kind of a generic parameter (bronzite-types, `GenericParamKind`). -/
inductive GenericParamKind where
  | Lifetime
  | Type
  | Const (ty : Str)

/-- A generic parameter (bronzite-types, `GenericParam`). -/
structure GenericParam where
  name : Str
  kind : GenericParamKind
  bounds : List Str
  default : Option Str

/-- Information about a struct field (bronzite-types, `FieldInfo`). -/
structure FieldInfo where
  name : Option Str
  index : Nat
  ty : Str
  resolved_ty : Option Str
  visibility : Visibility
  docs : Option Str
  attributes : List Str
  offset : Option Nat
  size : Option Nat
  span : Option SpanInfo

/-- Information about an enum variant (bronzite-types, `EnumVariantInfo`). -/
structure EnumVariantInfo where
  name : Str
  index : Nat
  fields : List FieldInfo
  discriminant : Option Str
  docs : Option Str
  attributes : List Str
  span : Option SpanInfo

/-- Field layout entry (bronzite-types, `FieldLayoutInfo`). -/
structure FieldLayoutInfo where
  name : Option Str
  index : Nat
  offset : Nat
  size : Nat

/-- Variant layout entry (bronzite-types, `VariantLayoutInfo`). -/
structure VariantLayoutInfo where
  name : Str
  discriminant : Option Int
  fields : List FieldLayoutInfo

/-- Memory layout information for a type (bronzite-types, `LayoutInfo`). -/
structure LayoutInfo where
  size : Nat
  align : Nat
  field_offsets : Option (List FieldLayoutInfo)
  variants : Option (List VariantLayoutInfo)
  is_sized : Bool
  is_copy : Bool
  is_send : Bool
  is_sync : Bool

/-- Summary of a method (bronzite-types, `MethodSummary`). -/
structure MethodSummary where
  name : Str
  path : Str
  signature : Str
  is_unsafe : Bool
  is_const : Bool
  is_async : Bool

/-- Literal kinds in method-body tokens (bronzite-types, `LiteralKind`). -/
inductive LiteralKind where
  | String
  | ByteString
  | Char
  | Byte
  | Int
  | Float
  | Bool

/-- Delimiters in method-body tokens (bronzite-types, `Delimiter`). -/
inductive Delimiter where
  | Paren
  | Bracket
  | Brace
  | None

mutual

/-- Simplified token representation for method bodies (bronzite-types, `Token`). -/
inductive Token where
  | Ident (name : Str)
  | Literal (kind : LiteralKind) (value : Str)
  | Punct (ch : Char)
  | Keyword (name : Str)
  | Group (delimiter : Delimiter) (tokens : List Token)
  | Path (segments : List Str)
  | MethodCall (receiver : Token) (method : Str) (args : List Token)
  | FnCall (path : List Str) (args : List Token)
  | FieldAccess (base : Token) (field : Str)
  | BinOp (lhs : Token) (op : Str) (rhs : Token)
  | UnaryOp (op : Str) (expr : Token)
  | If (cond : Token) (then_branch : List Token) (else_branch : Option (List Token))
  | Match (expr : Token) (arms : List MatchArm)
  | Let (pattern : Str) (ty : Option Str) (init : Option Token)
  | Return (expr : Option Token)
  | Block (stmts : List Token)
  | Closure (params : List Str) (body : Token)
  | Raw (source : Str)

/-- One arm of a match expression (bronzite-types, `MatchArm`). -/
inductive MatchArm where
  | mk (pattern : Str) (guard : Option Str) (body : List Token)

end

/-- Receiver of a method (bronzite-types, `ReceiverInfo`). -/
structure ReceiverInfo where
  kind : Str
  is_mut : Bool
  is_ref : Bool
  lifetime : Option Str

/-- A function parameter (bronzite-types, `ParamInfo`). -/
structure ParamInfo where
  name : Str
  ty : Str
  is_mut : Bool

/-- Parsed function signature (bronzite-types, `FunctionSignature`). -/
structure FunctionSignature where
  receiver : Option ReceiverInfo
  params : List ParamInfo
  return_ty : Option Str
  generics : List GenericParam
  where_clause : Option Str

/-- Detailed information about a method (bronzite-types, `MethodDetails`). -/
structure MethodDetails where
  name : Str
  path : Str
  signature : Str
  parsed_signature : FunctionSignature
  has_body : Bool
  body_source : Option Str
  body_tokens : Option (List Token)
  is_unsafe : Bool
  is_const : Bool
  is_async : Bool
  docs : Option Str
  attributes : List Str
  span : Option SpanInfo

/-- Associated type information (bronzite-types, `AssocTypeInfo`). -/
structure AssocTypeInfo where
  name : Str
  ty : Option Str
  bounds : List Str
  default : Option Str
  docs : Option Str
  span : Option SpanInfo

/-- Associated constant information (bronzite-types, `AssocConstInfo`). -/
structure AssocConstInfo where
  name : Str
  ty : Str
  value : Option Str
  docs : Option Str
  span : Option SpanInfo

/-- Detailed information about a trait implementation
(bronzite-types, `TraitImplDetails`). -/
structure TraitImplDetails where
  self_ty : Str
  trait_path : Str
  generics : List GenericParam
  where_clause : Option Str
  is_negative : Bool
  is_unsafe : Bool
  methods : List MethodDetails
  assoc_types : List AssocTypeInfo
  assoc_consts : List AssocConstInfo
  source : Option Str
  span : Option SpanInfo

/-- Detailed information about an inherent impl block
(bronzite-types, `InherentImplDetails`). -/
structure InherentImplDetails where
  self_ty : Str
  generics : List GenericParam
  where_clause : Option Str
  is_unsafe : Bool
  methods : List MethodDetails
  assoc_consts : List AssocConstInfo
  assoc_types : List AssocTypeInfo
  source : Option Str
  span : Option SpanInfo

/-- Detailed information about a type (bronzite-types, `TypeDetails`). -/
structure TypeDetails where
  name : Str
  path : Str
  kind : TypeKind
  visibility : Visibility
  generics : List GenericParam
  where_clause : Option Str
  docs : Option Str
  attributes : List Str
  fields : Option (List FieldInfo)
  variants : Option (List EnumVariantInfo)
  trait_impls : List Str
  inherent_methods : List MethodSummary
  layout : Option LayoutInfo
  source : Option Str
  span : Option SpanInfo

/-- Summary information about a type (bronzite-types, `TypeSummary`). -/
structure TypeSummary where
  name : Str
  path : Str
  kind : TypeKind
  generics : List GenericParam

/-- Summary information about a trait (bronzite-types, `TraitInfo`). -/
structure TraitInfo where
  name : Str
  path : Str
  generics : List GenericParam
  required_methods : Nat
  provided_methods : Nat
  supertraits : List Str

/-- Information about a trait method (bronzite-types, `TraitMethodInfo`). -/
structure TraitMethodInfo where
  name : Str
  signature : Str
  parsed_signature : FunctionSignature
  has_default : Bool
  default_body : Option Str
  is_unsafe : Bool
  docs : Option Str
  attributes : List Str
  span : Option SpanInfo

/-- Detailed information about a trait (bronzite-types, `TraitDetails`). -/
structure TraitDetails where
  name : Str
  path : Str
  visibility : Visibility
  generics : List GenericParam
  where_clause : Option Str
  is_auto : Bool
  is_unsafe : Bool
  supertraits : List Str
  methods : List TraitMethodInfo
  assoc_types : List AssocTypeInfo
  assoc_consts : List AssocConstInfo
  docs : Option Str
  attributes : List Str
  source : Option Str
  implementors : List Str
  span : Option SpanInfo

/-- Information about a type alias (bronzite-types, `TypeAliasInfo`). -/
structure TypeAliasInfo where
  name : Str
  path : Str
  generics : List GenericParam
  ty : Str
  resolved_ty : Str
  visibility : Visibility
  docs : Option Str
  span : Option SpanInfo

/-- Re-export record (bronzite-types, `ReexportInfo`). -/
structure ReexportInfo where
  name : Str
  original_path : Str
  visibility : Visibility

/-- Information about a module (bronzite-types, `ModuleInfo`). -/
structure ModuleInfo where
  name : Str
  path : Str
  visibility : Visibility
  items : List Str
  reexports : List ReexportInfo

/-- Complete extracted type information for a crate, the daemon's cache
value (bronzite-types, `CrateTypeInfo`). -/
structure CrateTypeInfo where
  crate_name : Str
  crate_version : Option Str
  items : List ItemInfo
  types : List (Str × TypeDetails)
  traits : List (Str × TraitDetails)
  trait_impls : List (Str × List TraitImplDetails)
  inherent_impls : List (Str × List InherentImplDetails)
  type_aliases : List (Str × TypeAliasInfo)
  layouts : List (Str × LayoutInfo)
  modules : List (Str × ModuleInfo)

/-- Available queries (bronzite-types, `Query`). -/
inductive Query where
  | ListItems
  | GetType (path : Str)
  | GetTraitImpls (type_path : Str)
  | GetInherentImpls (type_path : Str)
  | GetFields (type_path : Str)
  | GetLayout (type_path : Str)
  | GetTraits
  | GetTrait (path : Str)
  | FindTypes (pattern : Str)
  | ResolveAlias (path : Str)
  | CheckImpl (type_path : Str) (trait_path : Str)
  | GetImplementors (trait_path : Str)
  | Ping
  | Shutdown

/-- A request from a client to the daemon (bronzite-types, `Request`). -/
structure Request where
  id : Nat
  crate_name : Str
  query : Query

/-- Data returned from successful queries (bronzite-types, `QueryData`). -/
inductive QueryData where
  | Items (items : List ItemInfo)
  | TypeInfo (details : TypeDetails)
  | TraitImpls (impls : List TraitImplDetails)
  | InherentImpls (impls : List InherentImplDetails)
  | Fields (fields : List FieldInfo)
  | Layout (layout : LayoutInfo)
  | Traits (traits : List TraitInfo)
  | TraitDetails (details : TraitDetails)
  | Types (types : List TypeSummary)
  | ResolvedType (original : Str) (resolved : Str) (chain : List Str)
  | ImplCheck (implements : Bool) (impl_info : Option TraitImplDetails)
  | Implementors (types : List TypeSummary)
  | Pong
  | ShuttingDown

/-- The result of a query execution (bronzite-types, `QueryResult`). -/
inductive QueryResult where
  | Success (data : QueryData)
  | Error (message : Str)

/-- A response from the daemon (bronzite-types, `Response`). -/
structure Response where
  id : Nat
  result : QueryResult

/-!
Query resolver, translated from `CacheManager::execute_query` and
`check_impl_from_cache` in crates/bronzite-daemon/src/main.rs.
-/

/-- Error message of the `GetType` and `GetFields` arms:
format!("Type '{}' not found", path). -/
def type_not_found_msg (path : Str) : Str :=
  str "Type '" ++ path ++ str "' not found"

/-- Error message of the `GetLayout` arm:
format!("Layout for '{}' not found", type_path). -/
def layout_not_found_msg (type_path : Str) : Str :=
  str "Layout for '" ++ type_path ++ str "' not found"

/-- Error message of the `GetTrait` arm:
format!("Trait '{}' not found", path). -/
def trait_not_found_msg (path : Str) : Str :=
  str "Trait '" ++ path ++ str "' not found"

/-- Error message of the `ResolveAlias` arm:
format!("Type alias '{}' not found", path). -/
def alias_not_found_msg (path : Str) : Str :=
  str "Type alias '" ++ path ++ str "' not found"

/-- Translation of the free function `check_impl_from_cache`
(daemon main.rs, lines 454-475), as recursion over the `trait_impls`
association list: the first key equal to `type_path` or ending in
`::type_path` that contains an impl whose `trait_path` matches exactly
or by `::`-suffix yields `(true, that impl)`. -/
def check_impl_list (type_path trait_path : Str) :
    List (Str × List TraitImplDetails) → Bool × Option TraitImplDetails
  | [] => (false, none)
  | kv :: rest =>
    if kv.1 == type_path || endsWithStr kv.1 (str "::" ++ type_path) then
      match kv.2.find? (fun i =>
          i.trait_path == trait_path
            || endsWithStr i.trait_path (str "::" ++ trait_path)) with
      | some i => (true, some i)
      | none => check_impl_list type_path trait_path rest
    else check_impl_list type_path trait_path rest

/-- Entry point matching the Rust signature of `check_impl_from_cache`. -/
def check_impl_from_cache (info : CrateTypeInfo) (type_path trait_path : Str) :
    Bool × Option TraitImplDetails :=
  check_impl_list type_path trait_path info.trait_impls

/-- Translation of `TypeSummary` construction used by the `FindTypes` and
`GetImplementors` arms. -/
def summarize_type (t : TypeDetails) : TypeSummary :=
  ⟨t.name, t.path, t.kind, t.generics⟩

/-- Translation of `TraitInfo` construction in the `GetTraits` arm. -/
def trait_info_of (t : TraitDetails) : TraitInfo :=
  ⟨t.name, t.path, t.generics,
    (t.methods.filter (fun m => !m.has_default)).length,
    (t.methods.filter (fun m => m.has_default)).length,
    t.supertraits⟩

/-- Translation of the query-dispatch match in
`CacheManager::execute_query` (daemon main.rs, lines 224-450), factored
over an already-resolved snapshot. The `Ping` and `Shutdown` arms carry
the values of the early returns at lines 202-211; in the Rust source the
corresponding late match arm is unreachable. -/
def execute_query_on_info (info : CrateTypeInfo) : Query → QueryResult
  | .Ping => .Success .Pong
  | .Shutdown => .Success .ShuttingDown
  | .ListItems => .Success (.Items info.items)
  | .GetType path =>
    -- Try exact match first, then suffix match
    match (info.types.lookup path).orElse (fun _ =>
        (info.types.map Prod.snd).find? (fun t =>
          endsWithStr t.path (str "::" ++ path))) with
    | some t => .Success (.TypeInfo t)
    | none => .Error (type_not_found_msg path)
  | .GetTraitImpls type_path =>
    -- Try exact key match first
    let impls :=
      match info.trait_impls.lookup type_path with
      | some type_impls => type_impls
      | none => []
    -- Also search by suffix matching on keys
    let impls := info.trait_impls.foldl (fun acc kv =>
      if !(kv.1 == type_path)
          && (endsWithStr kv.1 (str "::" ++ type_path)
            || (splitOnChar '<' kv.1).head? == some type_path) then
        acc ++ kv.2
      else acc) impls
    .Success (.TraitImpls impls)
  | .GetInherentImpls type_path =>
    let impls :=
      match info.inherent_impls.lookup type_path with
      | some type_impls => type_impls
      | none => []
    let impls := info.inherent_impls.foldl (fun acc kv =>
      if !(kv.1 == type_path) && endsWithStr kv.1 (str "::" ++ type_path) then
        acc ++ kv.2
      else acc) impls
    .Success (.InherentImpls impls)
  | .GetFields type_path =>
    match (info.types.lookup type_path).orElse (fun _ =>
        (info.types.map Prod.snd).find? (fun t =>
          endsWithStr t.path (str "::" ++ type_path))) with
    | some t => .Success (.Fields (t.fields.getD []))
    | none => .Error (type_not_found_msg type_path)
  | .GetLayout type_path =>
    match info.layouts.lookup type_path with
    | some layout => .Success (.Layout layout)
    | none => .Error (layout_not_found_msg type_path)
  | .GetTraits =>
    .Success (.Traits ((info.traits.map Prod.snd).map trait_info_of))
  | .GetTrait path =>
    match (info.traits.lookup path).orElse (fun _ =>
        (info.traits.map Prod.snd).find? (fun t =>
          endsWithStr t.path (str "::" ++ path))) with
    | some t => .Success (.TraitDetails t)
    | none => .Error (trait_not_found_msg path)
  | .FindTypes pattern =>
    .Success (.Types
      (((info.types.map Prod.snd).filter (fun t =>
          path_matches_pattern t.path pattern)).map summarize_type))
  | .ResolveAlias path =>
    match (info.type_aliases.lookup path).orElse (fun _ =>
        (info.type_aliases.map Prod.snd).find? (fun a =>
          endsWithStr a.path (str "::" ++ path))) with
    | some a => .Success (.ResolvedType a.path a.resolved_ty [a.ty])
    | none => .Error (alias_not_found_msg path)
  | .CheckImpl type_path trait_path =>
    let r := check_impl_from_cache info type_path trait_path
    .Success (.ImplCheck r.1 r.2)
  | .GetImplementors trait_path =>
    .Success (.Implementors (info.trait_impls.flatMap (fun kv =>
      kv.2.filterMap (fun i =>
        if i.trait_path == trait_path
            || endsWithStr i.trait_path (str "::" ++ trait_path) then
          (info.types.lookup kv.1).map summarize_type
        else none))))

/-!
Cache manager, translated from `CacheManager::get_or_compile`,
`CacheManager::invalidate` and the early-return part of
`CacheManager::execute_query` (daemon main.rs, lines 104-221).
The external extractor subprocess (`compile_and_extract`) is a parameter
`extract`; the third component of each result records whether the
extractor was invoked.
-/

/-- Translation of `CacheManager::get_or_compile` (main.rs, lines
104-110): on a cache hit return the entry; on a miss run the extractor
and, only on success, insert the result. -/
def get_or_compile (extract : Str → Except Str CrateTypeInfo)
    (cache : List (Str × CrateTypeInfo)) (crate_name : Str) :
    List (Str × CrateTypeInfo) × Except Str CrateTypeInfo × Bool :=
  match cache.lookup crate_name with
  | some info => (cache, .ok info, false)
  | none =>
    match extract crate_name with
    | .ok info => ((crate_name, info) :: cache, .ok info, true)
    | .error e => (cache, .error e, true)

/-- Translation of `CacheManager::invalidate` (main.rs, lines 192-197):
remove the entry if present. -/
def invalidate (cache : List (Str × CrateTypeInfo)) (crate_name : Str) :
    List (Str × CrateTypeInfo) :=
  cache.filter (fun kv => !(kv.1 == crate_name))

/-- Translation of `CacheManager::execute_query` (main.rs, lines
199-451): `Ping` and `Shutdown` are answered without touching the cache;
every other query resolves the snapshot through `get_or_compile` first
and maps an extraction failure to an `Error` result. -/
def execute_query (extract : Str → Except Str CrateTypeInfo)
    (cache : List (Str × CrateTypeInfo)) (crate_name : Str) (query : Query) :
    List (Str × CrateTypeInfo) × QueryResult × Bool :=
  match query with
  | .Ping => (cache, .Success .Pong, false)
  | .Shutdown => (cache, .Success .ShuttingDown, false)
  | q =>
    match get_or_compile extract cache crate_name with
    | (cache2, .ok info, invoked) => (cache2, execute_query_on_info info q, invoked)
    | (cache2, .error e, invoked) => (cache2, .Error e, invoked)

/-!
Protocol codec. The wire format is one serde_json object per line; this
embedding models the codec at the level of JSON values (the serde data
model): `encode_request` is the JSON value produced by the derived
`Serialize` for `Request` (with `#[serde(tag = "type",
rename_all = "snake_case")]` on `Query`), and `decode_request` models
the derived `Deserialize` (dispatch on the "type" tag, then read the
named fields).
-/

/-- JSON values (only the shapes the protocol uses). -/
inductive Json where
  | null
  | bool (b : Bool)
  | num (n : Nat)
  | jstr (s : Str)
  | arr (elems : List Json)
  | obj (fields : List (Str × Json))

/-- Look a field up in a JSON object's field list. -/
def jlookup (fields : List (Str × Json)) (key : Str) : Option Json :=
  match fields.find? (fun kv => kv.1 == key) with
  | some kv => some kv.2
  | none => none

/-- Serialization of `Query`: internally tagged with tag field "type" and
snake_case variant names, struct fields by name. -/
def encode_query : Query → Json
  | .ListItems => .obj [(str "type", .jstr (str "list_items"))]
  | .GetType path =>
    .obj [(str "type", .jstr (str "get_type")), (str "path", .jstr path)]
  | .GetTraitImpls type_path =>
    .obj [(str "type", .jstr (str "get_trait_impls")),
      (str "type_path", .jstr type_path)]
  | .GetInherentImpls type_path =>
    .obj [(str "type", .jstr (str "get_inherent_impls")),
      (str "type_path", .jstr type_path)]
  | .GetFields type_path =>
    .obj [(str "type", .jstr (str "get_fields")), (str "type_path", .jstr type_path)]
  | .GetLayout type_path =>
    .obj [(str "type", .jstr (str "get_layout")), (str "type_path", .jstr type_path)]
  | .GetTraits => .obj [(str "type", .jstr (str "get_traits"))]
  | .GetTrait path =>
    .obj [(str "type", .jstr (str "get_trait")), (str "path", .jstr path)]
  | .FindTypes pattern =>
    .obj [(str "type", .jstr (str "find_types")), (str "pattern", .jstr pattern)]
  | .ResolveAlias path =>
    .obj [(str "type", .jstr (str "resolve_alias")), (str "path", .jstr path)]
  | .CheckImpl type_path trait_path =>
    .obj [(str "type", .jstr (str "check_impl")),
      (str "type_path", .jstr type_path), (str "trait_path", .jstr trait_path)]
  | .GetImplementors trait_path =>
    .obj [(str "type", .jstr (str "get_implementors")),
      (str "trait_path", .jstr trait_path)]
  | .Ping => .obj [(str "type", .jstr (str "ping"))]
  | .Shutdown => .obj [(str "type", .jstr (str "shutdown"))]

/-- Deserialization of `Query`: read the "type" tag, then the variant's
named fields. -/
def decode_query (j : Json) : Option Query :=
  match j with
  | .obj fields =>
    match jlookup fields (str "type") with
    | some (.jstr tag) =>
      if tag == str "list_items" then some .ListItems
      else if tag == str "get_type" then
        match jlookup fields (str "path") with
        | some (.jstr p) => some (.GetType p)
        | _ => none
      else if tag == str "get_trait_impls" then
        match jlookup fields (str "type_path") with
        | some (.jstr p) => some (.GetTraitImpls p)
        | _ => none
      else if tag == str "get_inherent_impls" then
        match jlookup fields (str "type_path") with
        | some (.jstr p) => some (.GetInherentImpls p)
        | _ => none
      else if tag == str "get_fields" then
        match jlookup fields (str "type_path") with
        | some (.jstr p) => some (.GetFields p)
        | _ => none
      else if tag == str "get_layout" then
        match jlookup fields (str "type_path") with
        | some (.jstr p) => some (.GetLayout p)
        | _ => none
      else if tag == str "get_traits" then some .GetTraits
      else if tag == str "get_trait" then
        match jlookup fields (str "path") with
        | some (.jstr p) => some (.GetTrait p)
        | _ => none
      else if tag == str "find_types" then
        match jlookup fields (str "pattern") with
        | some (.jstr p) => some (.FindTypes p)
        | _ => none
      else if tag == str "resolve_alias" then
        match jlookup fields (str "path") with
        | some (.jstr p) => some (.ResolveAlias p)
        | _ => none
      else if tag == str "check_impl" then
        match jlookup fields (str "type_path"), jlookup fields (str "trait_path") with
        | some (.jstr tp), some (.jstr trp) => some (.CheckImpl tp trp)
        | _, _ => none
      else if tag == str "get_implementors" then
        match jlookup fields (str "trait_path") with
        | some (.jstr p) => some (.GetImplementors p)
        | _ => none
      else if tag == str "ping" then some .Ping
      else if tag == str "shutdown" then some .Shutdown
      else none
    | _ => none
  | _ => none

/-- Serialization of `Request` (plain struct: fields by name). -/
def encode_request (r : Request) : Json :=
  .obj [(str "id", .num r.id), (str "crate_name", .jstr r.crate_name),
    (str "query", encode_query r.query)]

/-- Deserialization of `Request`. -/
def decode_request (j : Json) : Option Request :=
  match j with
  | .obj fields =>
    match jlookup fields (str "id"), jlookup fields (str "crate_name"),
        jlookup fields (str "query") with
    | some (.num n), some (.jstr s), some qj =>
      match decode_query qj with
      | some q => some ⟨n, s, q⟩
      | none => none
    | _, _, _ => none
  | _ => none

/-!
Socket-path discovery, translated from `default_socket_path` and
`socket_path_for_workspace` (bronzite-types, lines 764-779). The
standard library's `DefaultHasher` over the workspace path is external
to the repository; it is modelled as a parameter `hash_of` whose
codomain `Fin (2 ^ 64)` records the one decided fact about it: the
finished hash is a `u64`. `temp_dir` is likewise a parameter.
-/

/-- Character of one lowercase hex digit (value below 16): `0`-`9` then
`a`-`f`, as produced by the `{:x}` format. -/
def hexDigitChar (n : Nat) : Char :=
  if n < 10 then Char.ofNat (48 + n) else Char.ofNat (87 + n)

/-- Lowercase hex rendering of a natural number without leading zeros,
the `format!("{:x}", hash)` of the source. -/
def toHex (n : Nat) : Str :=
  if h : n < 16 then [hexDigitChar n]
  else
    have : n / 16 < n := Nat.div_lt_self (by omega) (by omega)
    toHex (n / 16) ++ [hexDigitChar (n % 16)]
termination_by n

/-- Model of `PathBuf::join` for a relative file name. -/
def path_join (dir file : Str) : Str := dir ++ str "/" ++ file

/-- Translation of `default_socket_path`: temp_dir().join("bronzite.sock"). -/
def default_socket_path (temp_dir : Str) : Str :=
  path_join temp_dir (str "bronzite.sock")

/-- Translation of `socket_path_for_workspace`:
temp_dir().join(format!("bronzite-{:x}.sock", hash)). -/
def socket_path_for_workspace (temp_dir : Str) (hash_of : Str → Fin (2 ^ 64))
    (workspace_root : Str) : Str :=
  path_join temp_dir
    (str "bronzite-" ++ toHex (hash_of workspace_root) ++ str ".sock")

/-!
Spec-side lookup definitions, used to compare the implementation against
the lookup policy of spec section 4.3.
-/

/-- Lookup policy of spec section 4.3, tier 1 then tier 2, with the
tier-2 scan over the stored `path` field of the map's values (for the
type/trait/alias maps the stored path is the join key's counterpart):
exact key match first, else the first entry whose path ends in
`::` followed by the supplied name. -/
def lookup_exact_then_suffix {α : Type} (m : List (Str × α)) (path : Str)
    (path_of : α → Str) : Option α :=
  match m.lookup path with
  | some v => some v
  | none =>
    (m.map Prod.snd).find? (fun v => endsWithStr (path_of v) (str "::" ++ path))

/-- Lookup policy of spec section 4.3 applied to the key strings
themselves ("scan all keys"), as the spec prescribes for maps whose
values carry no path field (the layout map). -/
def lookup_exact_then_suffix_key {α : Type} (m : List (Str × α)) (path : Str) :
    Option α :=
  match m.lookup path with
  | some v => some v
  | none =>
    (m.find? (fun kv => endsWithStr kv.1 (str "::" ++ path))).map Prod.snd

/-!
Sample snapshots used by witnesses and counterexamples.
-/

/-- A minimal `TypeDetails` value with the given path, kind and fields. -/
def mkTypeDetails (p : Str) (k : TypeKind) (fields : Option (List FieldInfo)) :
    TypeDetails :=
  ⟨p, p, k, .Public, [], none, none, [], fields, none, [], [], none, none, none⟩

/-- An empty snapshot. -/
def emptyInfo : CrateTypeInfo :=
  ⟨str "pkg", none, [], [], [], [], [], [], [], []⟩

/-- Details of the single type `pkg::mod::Foo` of the suffix-match
scenario of spec section 8. -/
def fooDetails : TypeDetails :=
  mkTypeDetails (str "pkg::mod::Foo") .Struct (some [])

/-- Snapshot whose type map has the single key `pkg::mod::Foo`. -/
def fooInfo : CrateTypeInfo :=
  ⟨str "pkg", none, [], [(str "pkg::mod::Foo", fooDetails)], [], [], [], [], [], []⟩

/-- C2: the pattern matcher implements exactly the specified pattern
shapes, with the five specified evaluations, and any pattern that is not
one of the two glob suffix forms but contains more than one `*` matches
nothing. -/
theorem pattern_matcher_shapes :
    (path_matches_pattern (str "pkg::Bar") (str "pkg::*") = true)
    ∧ (path_matches_pattern (str "pkg::sub::Bar") (str "pkg::*") = false)
    ∧ (path_matches_pattern (str "pkg::sub::Bar") (str "pkg::**") = true)
    ∧ (path_matches_pattern (str "pkg::BarBaz") (str "pkg::Bar*") = true)
    ∧ (path_matches_pattern (str "pkg::Baz") (str "pkg::Bar*") = false)
    ∧ (∀ pattern : Str,
        endsWithStr (trimStr pattern) (str "::**") = false →
        endsWithStr (trimStr pattern) (str "::*") = false →
        2 ≤ (trimStr pattern).count '*' →
        ∀ path : Str, path_matches_pattern path pattern = false) := by
  refine ⟨by decide, by decide, by decide, by decide, by decide, ?_⟩
  intro pattern h1 h2 hcount path
  have hmem : '*' ∈ trimStr pattern := by
    have : 0 < (trimStr pattern).count '*' := by omega
    exact List.count_pos_iff.mp this
  have hcon : (trimStr pattern).contains '*' = true :=
    List.elem_eq_true_of_mem hmem
  have hlen := splitOnChar_length '*' (trimStr pattern)
  unfold path_matches_pattern
  simp only [h1, h2, hcon, Bool.false_eq_true, if_false, if_true]
  cases hxs : splitOnChar '*' (trimStr pattern) with
  | nil => rfl
  | cons a rest =>
    cases rest with
    | nil => rfl
    | cons b rest2 =>
      cases rest2 with
      | nil =>
        rw [hxs] at hlen
        simp only [List.length_cons, List.length_nil] at hlen
        omega
      | cons c rest3 => rfl

/-- Witness for C2: the multi-wildcard rejection applied at the pattern
`a*b*c` and the path `x`. -/
theorem pattern_matcher_shapes_witness :
    path_matches_pattern (str "x") (str "a*b*c") = false :=
  pattern_matcher_shapes.2.2.2.2.2 (str "a*b*c") (by decide) (by decide)
    (by decide) (str "x")

/-- C5: suffix matching in the `GetType` lookup is segment-boundary
matching: with the single key `pkg::mod::Foo`, the bare name `Foo` and
the partial path `mod::Foo` succeed, while `NotFoo` and `oo` fail. -/
theorem get_type_suffix_segment_boundary :
    (execute_query_on_info fooInfo (.GetType (str "Foo"))
        = .Success (.TypeInfo fooDetails))
    ∧ (execute_query_on_info fooInfo (.GetType (str "mod::Foo"))
        = .Success (.TypeInfo fooDetails))
    ∧ (execute_query_on_info fooInfo (.GetType (str "NotFoo"))
        = .Error (type_not_found_msg (str "NotFoo")))
    ∧ (execute_query_on_info fooInfo (.GetType (str "oo"))
        = .Error (type_not_found_msg (str "oo"))) :=
  ⟨rfl, rfl, rfl, rfl⟩

/-- C10: a `GetFields` query whose type path resolves (exactly or by
suffix) to a type with no recorded field list returns `Success` with an
empty fields vector, not an error. -/
theorem get_fields_fieldless_empty_success :
    ∀ (info : CrateTypeInfo) (type_path : Str) (t : TypeDetails),
      (info.types.lookup type_path).orElse (fun _ =>
          (info.types.map Prod.snd).find? (fun t =>
            endsWithStr t.path (str "::" ++ type_path))) = some t →
      t.fields = none →
      execute_query_on_info info (.GetFields type_path)
        = .Success (.Fields []) := by
  intro info type_path t hlk hf
  simp only [execute_query_on_info]
  rw [hlk]
  simp [hf]

/-- Details of a fieldless (enum) type `pkg::Color`. -/
def colorDetails : TypeDetails := mkTypeDetails (str "pkg::Color") .Enum none

/-- Snapshot holding only the enum `pkg::Color`. -/
def colorInfo : CrateTypeInfo :=
  ⟨str "pkg", none, [], [(str "pkg::Color", colorDetails)], [], [], [], [], [], []⟩

/-- Witness for C10: querying the fields of the enum `pkg::Color` by its
bare name yields an empty success. -/
theorem get_fields_fieldless_empty_success_witness :
    execute_query_on_info colorInfo (.GetFields (str "Color"))
      = .Success (.Fields []) :=
  get_fields_fieldless_empty_success colorInfo (str "Color") colorDetails rfl rfl

/-!
Arm characterizations used by several claims.
-/

theorem orElse_eq_lookup_exact_then_suffix {α : Type} (m : List (Str × α))
    (path : Str) (f : α → Str) :
    ((m.lookup path).orElse (fun _ =>
        (m.map Prod.snd).find? (fun v => endsWithStr (f v) (str "::" ++ path))))
      = lookup_exact_then_suffix m path f := by
  unfold lookup_exact_then_suffix
  cases m.lookup path <;> rfl

theorem get_type_arm (info : CrateTypeInfo) (path : Str) :
    execute_query_on_info info (.GetType path)
      = match lookup_exact_then_suffix info.types path TypeDetails.path with
        | some t => .Success (.TypeInfo t)
        | none => .Error (type_not_found_msg path) := by
  simp only [execute_query_on_info]
  rw [orElse_eq_lookup_exact_then_suffix]

theorem get_fields_arm (info : CrateTypeInfo) (path : Str) :
    execute_query_on_info info (.GetFields path)
      = match lookup_exact_then_suffix info.types path TypeDetails.path with
        | some t => .Success (.Fields (t.fields.getD []))
        | none => .Error (type_not_found_msg path) := by
  simp only [execute_query_on_info]
  rw [orElse_eq_lookup_exact_then_suffix]

theorem get_trait_arm (info : CrateTypeInfo) (path : Str) :
    execute_query_on_info info (.GetTrait path)
      = match lookup_exact_then_suffix info.traits path TraitDetails.path with
        | some t => .Success (.TraitDetails t)
        | none => .Error (trait_not_found_msg path) := by
  simp only [execute_query_on_info]
  rw [orElse_eq_lookup_exact_then_suffix]

theorem resolve_alias_arm (info : CrateTypeInfo) (path : Str) :
    execute_query_on_info info (.ResolveAlias path)
      = match lookup_exact_then_suffix info.type_aliases path TypeAliasInfo.path with
        | some a => .Success (.ResolvedType a.path a.resolved_ty [a.ty])
        | none => .Error (alias_not_found_msg path) := by
  simp only [execute_query_on_info]
  rw [orElse_eq_lookup_exact_then_suffix]

theorem get_layout_arm (info : CrateTypeInfo) (path : Str) :
    execute_query_on_info info (.GetLayout path)
      = match info.layouts.lookup path with
        | some l => .Success (.Layout l)
        | none => .Error (layout_not_found_msg path) := rfl

theorem foldl_extend_eq {α β : Type} (p : α × List β → Bool) (l : List (α × List β)) :
    ∀ init : List β,
      l.foldl (fun acc kv => if p kv then acc ++ kv.2 else acc) init
        = init ++ (l.filter p).flatMap Prod.snd := by
  induction l with
  | nil => intro init; simp
  | cons kv rest ih =>
    intro init
    by_cases h : p kv <;> simp [h, ih, List.append_assoc]

/-- Key acceptance of the tier-2 scan for trait-impl keys: a key ending
in `::` plus the supplied name, or whose text before the first generic
delimiter `<` equals the supplied name (spec section 4.3, tier 2). -/
def impl_key_suffix_matches (key type_path : Str) : Bool :=
  endsWithStr key (str "::" ++ type_path)
    || (splitOnChar '<' key).head? == some type_path

/-- Trait impls collected for a type path per the code: the exact-key
entry followed by every entry under a different key accepted by
`impl_key_suffix_matches`. -/
def trait_impls_result (info : CrateTypeInfo) (type_path : Str) :
    List TraitImplDetails :=
  (match info.trait_impls.lookup type_path with
    | some l => l
    | none => [])
    ++ (info.trait_impls.filter (fun kv =>
        !(kv.1 == type_path) && impl_key_suffix_matches kv.1 type_path)).flatMap Prod.snd

/-- Inherent impls collected for a type path per the code: the exact-key
entry followed by every entry under a different key ending in `::` plus
the supplied name. -/
def inherent_impls_result (info : CrateTypeInfo) (type_path : Str) :
    List InherentImplDetails :=
  (match info.inherent_impls.lookup type_path with
    | some l => l
    | none => [])
    ++ (info.inherent_impls.filter (fun kv =>
        !(kv.1 == type_path) && endsWithStr kv.1 (str "::" ++ type_path))).flatMap Prod.snd

theorem get_trait_impls_arm (info : CrateTypeInfo) (type_path : Str) :
    execute_query_on_info info (.GetTraitImpls type_path)
      = .Success (.TraitImpls (trait_impls_result info type_path)) := by
  simp only [execute_query_on_info, trait_impls_result, impl_key_suffix_matches]
  rw [foldl_extend_eq]

theorem get_inherent_impls_arm (info : CrateTypeInfo) (type_path : Str) :
    execute_query_on_info info (.GetInherentImpls type_path)
      = .Success (.InherentImpls (inherent_impls_result info type_path)) := by
  simp only [execute_query_on_info, inherent_impls_result]
  rw [foldl_extend_eq]

/-- The list built by the `GetImplementors` arm. -/
def implementors_result (info : CrateTypeInfo) (trait_path : Str) :
    List TypeSummary :=
  info.trait_impls.flatMap (fun kv =>
    kv.2.filterMap (fun i =>
      if i.trait_path == trait_path
          || endsWithStr i.trait_path (str "::" ++ trait_path) then
        (info.types.lookup kv.1).map summarize_type
      else none))

theorem get_implementors_arm (info : CrateTypeInfo) (trait_path : Str) :
    execute_query_on_info info (.GetImplementors trait_path)
      = .Success (.Implementors (implementors_result info trait_path)) := rfl

theorem check_impl_arm (info : CrateTypeInfo) (type_path trait_path : Str) :
    execute_query_on_info info (.CheckImpl type_path trait_path)
      = .Success (.ImplCheck (check_impl_from_cache info type_path trait_path).1
          (check_impl_from_cache info type_path trait_path).2) := rfl

theorem check_impl_list_fst_iff (tp trp : Str)
    (l : List (Str × List TraitImplDetails)) :
    (check_impl_list tp trp l).1 = true ↔
      ∃ kv ∈ l, (kv.1 == tp || endsWithStr kv.1 (str "::" ++ tp)) = true ∧
        ∃ i ∈ kv.2,
          (i.trait_path == trp || endsWithStr i.trait_path (str "::" ++ trp)) = true := by
  induction l with
  | nil => simp [check_impl_list]
  | cons kv rest ih =>
    by_cases hk : (kv.1 == tp || endsWithStr kv.1 (str "::" ++ tp)) = true
    · cases hfind : kv.2.find? (fun i =>
          i.trait_path == trp || endsWithStr i.trait_path (str "::" ++ trp)) with
      | some i =>
        have hp : (i.trait_path == trp
            || endsWithStr i.trait_path (str "::" ++ trp)) = true := by
          simpa using List.find?_some hfind
        have hm : i ∈ kv.2 := List.mem_of_find?_eq_some hfind
        have hfst : (check_impl_list tp trp (kv :: rest)).1 = true := by
          simp [check_impl_list, hk, hfind]
        rw [hfst]
        simp only [true_iff]
        exact ⟨kv, List.mem_cons_self kv rest, hk, i, hm, hp⟩
      | none =>
        have hno : ∀ i ∈ kv.2, ¬ ((i.trait_path == trp
            || endsWithStr i.trait_path (str "::" ++ trp)) = true) := by
          intro i hi
          have := List.find?_eq_none.mp hfind i hi
          simp [this]
        have hrec : (check_impl_list tp trp (kv :: rest)).1
            = (check_impl_list tp trp rest).1 := by
          simp [check_impl_list, hk, hfind]
        rw [hrec, ih]
        constructor
        · rintro ⟨kv2, hkv2, hmatch, i, hi, hmi⟩
          exact ⟨kv2, List.mem_cons_of_mem kv hkv2, hmatch, i, hi, hmi⟩
        · rintro ⟨kv2, hkv2, hmatch, i, hi, hmi⟩
          rcases List.mem_cons.mp hkv2 with h2 | h2
          · subst h2
            exact absurd hmi (hno i hi)
          · exact ⟨kv2, h2, hmatch, i, hi, hmi⟩
    · have hkf : (kv.1 == tp || endsWithStr kv.1 (str "::" ++ tp)) = false :=
        Bool.not_eq_true _ ▸ eq_false_of_ne_true hk
      have hrec : (check_impl_list tp trp (kv :: rest)).1
          = (check_impl_list tp trp rest).1 := by
        simp [check_impl_list, hkf]
      rw [hrec, ih]
      constructor
      · rintro ⟨kv2, hkv2, hmatch, i, hi, hmi⟩
        exact ⟨kv2, List.mem_cons_of_mem kv hkv2, hmatch, i, hi, hmi⟩
      · rintro ⟨kv2, hkv2, hmatch, i, hi, hmi⟩
        rcases List.mem_cons.mp hkv2 with h2 | h2
        · subst h2
          rw [hkf] at hmatch
          exact absurd hmatch Bool.false_ne_true
        · exact ⟨kv2, h2, hmatch, i, hi, hmi⟩

theorem mem_implementors_result_iff (info : CrateTypeInfo) (trp : Str)
    (s : TypeSummary) :
    s ∈ implementors_result info trp ↔
      ∃ kv ∈ info.trait_impls, ∃ i ∈ kv.2,
        (i.trait_path == trp || endsWithStr i.trait_path (str "::" ++ trp)) = true
        ∧ ∃ t, info.types.lookup kv.1 = some t ∧ s = summarize_type t := by
  unfold implementors_result
  simp only [List.mem_flatMap, List.mem_filterMap]
  constructor
  · rintro ⟨kv, hkv, i, hi, hopt⟩
    by_cases hm : (i.trait_path == trp
        || endsWithStr i.trait_path (str "::" ++ trp)) = true
    · rw [if_pos hm] at hopt
      rcases Option.map_eq_some'.mp hopt with ⟨t, ht, hst⟩
      exact ⟨kv, hkv, i, hi, hm, t, ht, hst.symm⟩
    · rw [if_neg hm] at hopt
      exact absurd hopt (by simp)
  · rintro ⟨kv, hkv, i, hi, hm, t, ht, hst⟩
    exact ⟨kv, hkv, i, hi, by rw [if_pos hm, ht, hst]; rfl⟩

/-- Layout facts of the type `pkg::mod::Foo`. -/
def fooLayout : LayoutInfo := ⟨4, 4, none, none, true, true, true, true⟩

/-- Snapshot whose layout map has the single key `pkg::mod::Foo`. -/
def fooLayoutInfo : CrateTypeInfo :=
  ⟨str "pkg", none, [], [], [], [], [], [], [(str "pkg::mod::Foo", fooLayout)], []⟩

/-- Counterexample for C1: the two-tier policy is not uniform. The
`GetLayout` arm performs only an exact key match, so looking up the bare
name `Foo` in a snapshot whose layout map holds `pkg::mod::Foo` returns
an error, although the spec's exact-then-suffix policy finds the entry. -/
theorem get_layout_no_suffix_fallback :
    execute_query_on_info fooLayoutInfo (.GetLayout (str "Foo"))
        = .Error (layout_not_found_msg (str "Foo"))
    ∧ lookup_exact_then_suffix_key fooLayoutInfo.layouts (str "Foo")
        = some fooLayout :=
  ⟨rfl, rfl⟩

/-- C1 (amended): the exact-then-suffix two-tier policy holds for
get-type, get-fields, get-trait and resolve-alias (tier 2 scanning the
entries' stored path fields); get-trait-impls and get-inherent-impls
return the union of the exact-key entry and all suffix-matching keys
(get-trait-impls additionally accepting keys whose text before the first
generic delimiter equals the supplied name); check-impl accepts exact or
`::`-suffix key matches for the type and exact or `::`-suffix matches
for the trait; get-implementors matches trait paths exactly or by
`::`-suffix; get-layout performs an exact key match only, with no
fallback. -/
theorem lookup_policy_per_variant :
    ∀ (info : CrateTypeInfo) (path type_path trait_path : Str),
      (execute_query_on_info info (.GetType path)
        = match lookup_exact_then_suffix info.types path TypeDetails.path with
          | some t => .Success (.TypeInfo t)
          | none => .Error (type_not_found_msg path))
      ∧ (execute_query_on_info info (.GetFields path)
        = match lookup_exact_then_suffix info.types path TypeDetails.path with
          | some t => .Success (.Fields (t.fields.getD []))
          | none => .Error (type_not_found_msg path))
      ∧ (execute_query_on_info info (.GetTrait path)
        = match lookup_exact_then_suffix info.traits path TraitDetails.path with
          | some t => .Success (.TraitDetails t)
          | none => .Error (trait_not_found_msg path))
      ∧ (execute_query_on_info info (.ResolveAlias path)
        = match lookup_exact_then_suffix info.type_aliases path TypeAliasInfo.path with
          | some a => .Success (.ResolvedType a.path a.resolved_ty [a.ty])
          | none => .Error (alias_not_found_msg path))
      ∧ (execute_query_on_info info (.GetLayout path)
        = match info.layouts.lookup path with
          | some l => .Success (.Layout l)
          | none => .Error (layout_not_found_msg path))
      ∧ (execute_query_on_info info (.GetTraitImpls type_path)
        = .Success (.TraitImpls (trait_impls_result info type_path)))
      ∧ (execute_query_on_info info (.GetInherentImpls type_path)
        = .Success (.InherentImpls (inherent_impls_result info type_path)))
      ∧ (execute_query_on_info info (.CheckImpl type_path trait_path)
        = .Success (.ImplCheck (check_impl_from_cache info type_path trait_path).1
            (check_impl_from_cache info type_path trait_path).2))
      ∧ ((check_impl_from_cache info type_path trait_path).1 = true ↔
          ∃ kv ∈ info.trait_impls,
            (kv.1 == type_path || endsWithStr kv.1 (str "::" ++ type_path)) = true
            ∧ ∃ i ∈ kv.2, (i.trait_path == trait_path
                || endsWithStr i.trait_path (str "::" ++ trait_path)) = true)
      ∧ (execute_query_on_info info (.GetImplementors trait_path)
        = .Success (.Implementors (implementors_result info trait_path)))
      ∧ (∀ s : TypeSummary, s ∈ implementors_result info trait_path ↔
          ∃ kv ∈ info.trait_impls, ∃ i ∈ kv.2,
            (i.trait_path == trait_path
              || endsWithStr i.trait_path (str "::" ++ trait_path)) = true
            ∧ ∃ t, info.types.lookup kv.1 = some t ∧ s = summarize_type t) := by
  intro info path type_path trait_path
  exact ⟨get_type_arm info path, get_fields_arm info path, get_trait_arm info path,
    resolve_alias_arm info path, get_layout_arm info path,
    get_trait_impls_arm info type_path, get_inherent_impls_arm info type_path,
    check_impl_arm info type_path trait_path,
    check_impl_list_fst_iff type_path trait_path info.trait_impls,
    get_implementors_arm info trait_path,
    fun s => mem_implementors_result_iff info trait_path s⟩

/-- Counterexample for C3: a query whose subject matches no entry can be
answered with an empty `Success`: `GetTraitImpls` for an unknown type on
an empty snapshot yields `Success` with an empty impls list, not a typed
error. -/
theorem unknown_subject_empty_success :
    execute_query_on_info emptyInfo (.GetTraitImpls (str "Unknown"))
        = .Success (.TraitImpls [])
    ∧ lookup_exact_then_suffix_key emptyInfo.trait_impls (str "Unknown") = none :=
  ⟨rfl, rfl⟩

/-- C3 (amended): unknown subjects produce a typed error carrying the
subject path for get-type, get-fields, get-layout, get-trait and
resolve-alias; but get-trait-impls, get-inherent-impls, check-impl and
get-implementors always answer `Success` (possibly with an empty or
negative payload), so for those variants a caller cannot distinguish
zero results from an unknown subject. -/
theorem not_found_error_policy :
    ∀ (info : CrateTypeInfo) (path : Str),
      (lookup_exact_then_suffix info.types path TypeDetails.path = none →
        execute_query_on_info info (.GetType path)
          = .Error (type_not_found_msg path))
      ∧ (lookup_exact_then_suffix info.types path TypeDetails.path = none →
        execute_query_on_info info (.GetFields path)
          = .Error (type_not_found_msg path))
      ∧ (info.layouts.lookup path = none →
        execute_query_on_info info (.GetLayout path)
          = .Error (layout_not_found_msg path))
      ∧ (lookup_exact_then_suffix info.traits path TraitDetails.path = none →
        execute_query_on_info info (.GetTrait path)
          = .Error (trait_not_found_msg path))
      ∧ (lookup_exact_then_suffix info.type_aliases path TypeAliasInfo.path = none →
        execute_query_on_info info (.ResolveAlias path)
          = .Error (alias_not_found_msg path))
      ∧ (∃ l, execute_query_on_info info (.GetTraitImpls path)
          = .Success (.TraitImpls l))
      ∧ (∃ l, execute_query_on_info info (.GetInherentImpls path)
          = .Success (.InherentImpls l))
      ∧ (∀ trait_path, ∃ b oi,
          execute_query_on_info info (.CheckImpl path trait_path)
            = .Success (.ImplCheck b oi))
      ∧ (∃ l, execute_query_on_info info (.GetImplementors path)
          = .Success (.Implementors l)) := by
  intro info path
  refine ⟨?_, ?_, ?_, ?_, ?_, ?_, ?_, ?_, ?_⟩
  · intro h; rw [get_type_arm, h]
  · intro h; rw [get_fields_arm, h]
  · intro h; rw [get_layout_arm, h]
  · intro h; rw [get_trait_arm, h]
  · intro h; rw [resolve_alias_arm, h]
  · exact ⟨_, get_trait_impls_arm info path⟩
  · exact ⟨_, get_inherent_impls_arm info path⟩
  · intro trait_path
    exact ⟨_, _, check_impl_arm info path trait_path⟩
  · exact ⟨_, get_implementors_arm info path⟩

/-- Witness for C3 (amended): on the empty snapshot the unknown type
`Nope` yields the typed error carrying the path, and the impl-oriented
variants yield `Success`. -/
theorem not_found_error_policy_witness :
    execute_query_on_info emptyInfo (.GetType (str "Nope"))
        = .Error (type_not_found_msg (str "Nope"))
    ∧ execute_query_on_info emptyInfo (.GetLayout (str "Nope"))
        = .Error (layout_not_found_msg (str "Nope")) :=
  ⟨(not_found_error_policy emptyInfo (str "Nope")).1 rfl,
    (not_found_error_policy emptyInfo (str "Nope")).2.2.1 rfl⟩

/-- The alias `my_crate::MyAlias = Vec<u8>` used by the C4 scenario. -/
def myAlias : TypeAliasInfo :=
  ⟨str "MyAlias", str "my_crate::MyAlias", [], str "Vec<u8>", str "Vec<u8>",
    .Public, none, none⟩

/-- Snapshot holding only the alias `my_crate::MyAlias`. -/
def aliasInfo : CrateTypeInfo :=
  ⟨str "my_crate", none, [], [], [], [], [],
    [(str "my_crate::MyAlias", myAlias)], [], []⟩

/-- Counterexample for C4: the daemon sets the response's `original`
field to the alias's own declared path, not to the raw target type
string, and the `chain` field to the singleton holding the raw target:
resolving `my_crate::MyAlias` (declared as `Vec<u8>`) answers with
`original = "my_crate::MyAlias"`, which differs from the raw target. -/
theorem resolve_alias_original_is_path :
    execute_query_on_info aliasInfo (.ResolveAlias (str "my_crate::MyAlias"))
        = .Success (.ResolvedType (str "my_crate::MyAlias") (str "Vec<u8>")
            [str "Vec<u8>"])
    ∧ str "my_crate::MyAlias" ≠ str "Vec<u8>" :=
  ⟨rfl, by decide⟩

/-- Translation of the `ResolveAlias` arm of `execute_query` in
crates/bronzite-query/src/lib.rs (lines 1611-1622); this in-process
variant uses an exact lookup only. -/
def bq_resolve_alias (info : CrateTypeInfo) (path : Str) : QueryResult :=
  match info.type_aliases.lookup path with
  | some a =>
    .Success (.ResolvedType a.ty a.resolved_ty [a.path, a.resolved_ty])
  | none => .Error (str "Type alias not found: " ++ path)

/-- C4 (amended): on a matching alias entry the daemon's response sets
`original` to the alias's declared path, `resolved` to the fully
resolved type string, and `chain` to the one-element sequence holding
the raw declared target type; the in-process query crate instead sets
`original` to the raw target and `chain` to the pair of the alias path
and the resolved type. -/
theorem resolve_alias_payload :
    ∀ (info : CrateTypeInfo) (path : Str) (a : TypeAliasInfo),
      (lookup_exact_then_suffix info.type_aliases path TypeAliasInfo.path = some a →
        execute_query_on_info info (.ResolveAlias path)
          = .Success (.ResolvedType a.path a.resolved_ty [a.ty]))
      ∧ (info.type_aliases.lookup path = some a →
        bq_resolve_alias info path
          = .Success (.ResolvedType a.ty a.resolved_ty [a.path, a.resolved_ty])) := by
  intro info path a
  constructor
  · intro h; rw [resolve_alias_arm, h]
  · intro h; unfold bq_resolve_alias; rw [h]

/-- Witness for C4 (amended): the alias snapshot resolved through the
suffix fallback by its bare name, in both variants. -/
theorem resolve_alias_payload_witness :
    execute_query_on_info aliasInfo (.ResolveAlias (str "MyAlias"))
        = .Success (.ResolvedType (str "my_crate::MyAlias") (str "Vec<u8>")
            [str "Vec<u8>"])
    ∧ bq_resolve_alias aliasInfo (str "my_crate::MyAlias")
        = .Success (.ResolvedType (str "Vec<u8>") (str "Vec<u8>")
            [str "my_crate::MyAlias", str "Vec<u8>"]) :=
  ⟨(resolve_alias_payload aliasInfo (str "MyAlias") myAlias).1 rfl,
    (resolve_alias_payload aliasInfo (str "my_crate::MyAlias") myAlias).2 rfl⟩

theorem lookup_invalidate_eq_none (cache : List (Str × CrateTypeInfo)) (u : Str) :
    (invalidate cache u).lookup u = none := by
  induction cache with
  | nil => rfl
  | cons kv rest ih =>
    obtain ⟨k, v⟩ := kv
    show (List.filter (fun kv => !(kv.1 == u)) ((k, v) :: rest)).lookup u = none
    rw [List.filter_cons]
    by_cases h : k = u
    · rw [if_neg (by simp [h])]
      exact ih
    · rw [if_pos (by simp [h])]
      have hne : (u == k) = false := by simp [Ne.symm h]
      show List.lookup u ((k, v) :: List.filter _ rest) = none
      rw [List.lookup, hne]
      exact ih

/-- C6: a cache hit answers from the cached entry without invoking the
extractor and leaves the cache unchanged; a successful first resolution
inserts the entry (so later queries hit the cache); and only an explicit
invalidation removes the entry. -/
theorem cache_hit_idempotence :
    ∀ (extract : Str → Except Str CrateTypeInfo)
      (cache : List (Str × CrateTypeInfo)) (u : Str) (info : CrateTypeInfo),
      (cache.lookup u = some info →
        ∀ q, execute_query extract cache u q
          = (cache, execute_query_on_info info q, false))
      ∧ (cache.lookup u = none → extract u = .ok info →
        get_or_compile extract cache u = ((u, info) :: cache, .ok info, true)
          ∧ ((u, info) :: cache).lookup u = some info)
      ∧ (invalidate cache u).lookup u = none := by
  intro extract cache u info
  refine ⟨?_, ?_, lookup_invalidate_eq_none cache u⟩
  · intro h q
    cases q <;> simp [execute_query, get_or_compile, h, execute_query_on_info]
  · intro h1 h2
    constructor
    · unfold get_or_compile
      rw [h1, h2]
    · simp [List.lookup]

/-- Witness for C6: a concrete cached unit `u` is served from the cache
with the extractor reporting failure for everything, and invalidation
removes it. -/
theorem cache_hit_idempotence_witness :
    execute_query (fun _ => .error (str "boom")) [(str "u", emptyInfo)]
        (str "u") .ListItems
      = ([(str "u", emptyInfo)], .Success (.Items []), false)
    ∧ (invalidate [(str "u", emptyInfo)] (str "u")).lookup (str "u") = none :=
  ⟨(cache_hit_idempotence (fun _ => .error (str "boom"))
      [(str "u", emptyInfo)] (str "u") emptyInfo).1 rfl .ListItems,
    (cache_hit_idempotence (fun _ => .error (str "boom"))
      [(str "u", emptyInfo)] (str "u") emptyInfo).2.2⟩

/-- C7: if extraction for a unit fails, the query returns the error, the
cache is unchanged (nothing is inserted), and the identical next query
invokes the extractor again. -/
theorem extraction_failure_not_cached :
    ∀ (extract : Str → Except Str CrateTypeInfo)
      (cache : List (Str × CrateTypeInfo)) (u : Str) (q : Query) (e : Str),
      extract u = .error e → cache.lookup u = none →
      q ≠ .Ping → q ≠ .Shutdown →
      execute_query extract cache u q = (cache, .Error e, true)
      ∧ execute_query extract (execute_query extract cache u q).1 u q
          = (cache, .Error e, true) := by
  intro extract cache u q e hx hc hp hs
  have h1 : execute_query extract cache u q = (cache, .Error e, true) := by
    cases q
    case Ping => exact absurd rfl hp
    case Shutdown => exact absurd rfl hs
    all_goals simp [execute_query, get_or_compile, hc, hx]
  refine ⟨h1, ?_⟩
  rw [h1]
  exact h1

/-- Witness for C7: a failing extractor on an empty cache reports the
error, caches nothing, and is invoked on the retry. -/
theorem extraction_failure_not_cached_witness :
    execute_query (fun _ => .error (str "boom")) [] (str "u") .ListItems
      = ([], .Error (str "boom"), true) :=
  (extraction_failure_not_cached (fun _ => .error (str "boom")) [] (str "u")
    .ListItems (str "boom") rfl rfl (fun h => nomatch h) (fun h => nomatch h)).1

/-- C8: decoding an encoded request yields the request back, over every
query variant. -/
theorem protocol_round_trip :
    ∀ r : Request, decode_request (encode_request r) = some r := by
  intro r
  cases r with
  | mk id crate_name query => cases query <;> rfl

theorem hexDigitChar_inj_fin :
    ∀ m : Fin 16, ∀ n : Fin 16,
      hexDigitChar m.val = hexDigitChar n.val → m = n := by decide

theorem hexDigitChar_inj (m n : Nat) (hm : m < 16) (hn : n < 16)
    (h : hexDigitChar m = hexDigitChar n) : m = n := by
  have := hexDigitChar_inj_fin ⟨m, hm⟩ ⟨n, hn⟩ h
  simpa [Fin.ext_iff] using this

theorem toHex_ne_nil (n : Nat) : toHex n ≠ [] := by
  unfold toHex
  split <;> simp

theorem toHex_lt (n : Nat) (h : n < 16) : toHex n = [hexDigitChar n] := by
  unfold toHex
  rw [dif_pos h]

theorem toHex_ge (n : Nat) (h : ¬ n < 16) :
    toHex n = toHex (n / 16) ++ [hexDigitChar (n % 16)] := by
  rw [toHex]
  rw [dif_neg h]

theorem toHex_inj : ∀ m n : Nat, toHex m = toHex n → m = n := by
  intro m
  induction m using Nat.strong_induction_on with
  | _ m ih =>
    intro n h
    by_cases hm : m < 16 <;> by_cases hn : n < 16
    · rw [toHex_lt m hm, toHex_lt n hn] at h
      rw [List.cons.injEq] at h
      exact hexDigitChar_inj m n hm hn h.1
    · rw [toHex_lt m hm, toHex_ge n hn] at h
      have hlen := congrArg List.length h
      simp only [List.length_singleton, List.length_append,
        List.length_cons, List.length_nil] at hlen
      have hp := List.length_pos.mpr (toHex_ne_nil (n / 16))
      omega
    · rw [toHex_ge m hm, toHex_lt n hn] at h
      have hlen := congrArg List.length h
      simp only [List.length_singleton, List.length_append,
        List.length_cons, List.length_nil] at hlen
      have hp := List.length_pos.mpr (toHex_ne_nil (m / 16))
      omega
    · rw [toHex_ge m hm, toHex_ge n hn] at h
      have h2 := congrArg List.reverse h
      simp only [List.reverse_append, List.reverse_cons, List.reverse_nil,
        List.nil_append, List.singleton_append] at h2
      rw [List.cons.injEq] at h2
      obtain ⟨hd, ht⟩ := h2
      have hdiv : m / 16 = n / 16 := by
        have hlt : m / 16 < m := Nat.div_lt_self (by omega) (by omega)
        exact ih (m / 16) hlt (n / 16) (List.reverse_injective ht)
      have hmod : m % 16 = n % 16 :=
        hexDigitChar_inj _ _ (Nat.mod_lt m (by omega)) (Nat.mod_lt n (by omega)) hd
      omega

theorem socket_path_collision_exists :
    ∀ (temp_dir : Str) (hash_of : Str → Fin (2 ^ 64)),
      ∃ w1 w2 : Str, w1 ≠ w2
        ∧ socket_path_for_workspace temp_dir hash_of w1
            = socket_path_for_workspace temp_dir hash_of w2 := by
  intro td h
  have hcard : Fintype.card (Fin (2 ^ 64)) < Fintype.card (Fin (2 ^ 64 + 1)) := by
    simp only [Fintype.card_fin]
    exact Nat.lt_succ_self _
  obtain ⟨a, b, hab, hfab⟩ :=
    Fintype.exists_ne_map_eq_of_card_lt
      (fun i : Fin (2 ^ 64 + 1) => h (List.replicate i.val '/')) hcard
  refine ⟨List.replicate a.val '/', List.replicate b.val '/', ?_, ?_⟩
  · intro hww
    have hv : a.val = b.val := by
      have := congrArg List.length hww
      simpa using this
    exact hab (Fin.ext hv)
  · unfold socket_path_for_workspace path_join
    rw [hfab]

/-- Counterexample for C9: it is not the case that distinct workspace
roots always receive distinct socket paths — whatever the 64-bit hash
function is, more than `2 ^ 64` distinct roots exist, so two of them
collide on one socket path. -/
theorem socket_path_collision :
    ¬ ∀ (temp_dir : Str) (hash_of : Str → Fin (2 ^ 64)) (w1 w2 : Str),
        w1 ≠ w2 →
        socket_path_for_workspace temp_dir hash_of w1
          ≠ socket_path_for_workspace temp_dir hash_of w2 := by
  intro hall
  have h0 : Str → Fin (2 ^ 64) := fun _ => ⟨0, by norm_num⟩
  obtain ⟨w1, w2, hne, heq⟩ := socket_path_collision_exists [] h0
  exact hall [] h0 w1 w2 hne heq

/-- C9 (amended): the socket path is a deterministic function of the
workspace root hash, and two workspace roots receive the same socket
path exactly when their 64-bit hashes agree — so distinctness of socket
paths holds only up to hash collision, and collisions exist. -/
theorem socket_path_eq_iff_hash_eq :
    ∀ (temp_dir : Str) (hash_of : Str → Fin (2 ^ 64)) (w1 w2 : Str),
      socket_path_for_workspace temp_dir hash_of w1
          = socket_path_for_workspace temp_dir hash_of w2
        ↔ hash_of w1 = hash_of w2 := by
  intro td h w1 w2
  constructor
  · intro hp
    unfold socket_path_for_workspace path_join at hp
    simp only [List.append_assoc] at hp
    have h1 := List.append_cancel_left hp
    have h2 := List.append_cancel_left h1
    have h3 := List.append_cancel_left h2
    have h4 := List.append_cancel_right h3
    exact Fin.ext (toHex_inj _ _ h4)
  · intro hh
    unfold socket_path_for_workspace path_join
    rw [hh]
